import Mathlib

/-!
# Verification of the AWS cost-and-forecast report lambda

Shallow embedding of `src/lambda/cost-report/lambda_handler.py`.

Modelling conventions:
* Python `float` values (exchange rates, USD amounts parsed by `float(...)`)
  are modelled as `ℚ`.  All amounts appearing in the claims are decimal
  numbers for which rational arithmetic agrees with the Python results.
* Python `datetime.date` values are modelled by the `Date` structure
  (year/month/day) with the proleptic-Gregorian month lengths of
  `calendar.monthrange`; adding/subtracting `timedelta(days=1)` on a valid
  date is modelled by `Date.succDay` / `Date.predDay`.
* The code formats dates with `strftime("%Y-%m-%d")`; the model keeps the
  structured dates in the `Dates` record and applies `strftimeYMD` at the
  use sites (API call arguments and the report message).
* Fallible Python code (raised exceptions) is modelled with `Except PyErr`;
  external I/O (the AWS clients, the FX ticker, the Slack webhook and the
  system clock) is modelled by an `Env` record of oracle responses, and
  observable side effects (HTTP posts, stdout, error logs) by `Effect`
  lists.  API requests issued to Cost Explorer are recorded as `CECall`
  values.
-/

/-- Python exception values that the handler can raise, abstracted to the
classes that matter for control flow. -/
inductive PyErr
  | typeError
  | indexError
  | apiError (msg : String)
deriving DecidableEq, Repr

/-! ## Date model (`datetime.date` and `calendar.monthrange`) -/

/-- A calendar date, modelling `datetime.date`. -/
structure Date where
  year : Nat
  month : Nat
  day : Nat
deriving DecidableEq, Repr

/-- `calendar.isleap`: Gregorian leap-year rule. -/
def isleap (y : Nat) : Bool :=
  (y % 4 == 0 && y % 100 != 0) || y % 400 == 0

/-- Number of days in month `m` of year `y`
(the second component of `calendar.monthrange`). -/
def monthLength (y m : Nat) : Nat :=
  if m = 2 then (if isleap y then 29 else 28)
  else if m = 4 ∨ m = 6 ∨ m = 9 ∨ m = 11 then 30
  else 31

/-- Validity of a date: the dates representable by `datetime.date`
(restricted to positive years, as in Python). -/
def Date.Valid (d : Date) : Prop :=
  1 ≤ d.year ∧ 1 ≤ d.month ∧ d.month ≤ 12 ∧ 1 ≤ d.day ∧
    d.day ≤ monthLength d.year d.month

instance (d : Date) : Decidable d.Valid := by
  unfold Date.Valid; infer_instance

/-- `d - timedelta(days=1)` on a valid date. -/
def Date.predDay (d : Date) : Date :=
  if 1 < d.day then ⟨d.year, d.month, d.day - 1⟩
  else if 1 < d.month then ⟨d.year, d.month - 1, monthLength d.year (d.month - 1)⟩
  else ⟨d.year - 1, 12, 31⟩

/-- `d + timedelta(days=1)` on a valid date. -/
def Date.succDay (d : Date) : Date :=
  if d.day < monthLength d.year d.month then ⟨d.year, d.month, d.day + 1⟩
  else if d.month < 12 then ⟨d.year, d.month + 1, 1⟩
  else ⟨d.year + 1, 1, 1⟩

/-- Strict chronological order on dates (lexicographic on year, month, day). -/
def Date.lt (a b : Date) : Prop :=
  a.year < b.year ∨
    (a.year = b.year ∧
      (a.month < b.month ∨ (a.month = b.month ∧ a.day < b.day)))

/-- Chronological order on dates. -/
def Date.le (a b : Date) : Prop :=
  Date.lt a b ∨ a = b

instance (a b : Date) : Decidable (Date.lt a b) := by
  unfold Date.lt; infer_instance

instance (a b : Date) : Decidable (Date.le a b) := by
  unfold Date.le; infer_instance

/-- Left-pad the decimal representation of `n` with zeros to width `w`. -/
def padZeros (w : Nat) (n : Nat) : String :=
  let s := toString n
  String.mk (List.replicate (w - s.length) '0') ++ s

/-- `d.strftime("%Y-%m-%d")`. -/
def strftimeYMD (d : Date) : String :=
  padZeros 4 d.year ++ "-" ++ padZeros 2 d.month ++ "-" ++ padZeros 2 d.day

/-! ## `get_dates` -/

/-- The `Dates` dict returned by `get_dates` (structured dates; the code
stores their `%Y-%m-%d` renderings). -/
structure Dates where
  today : Date
  yesterday : Date
  start_of_next_month : Date
  start_date : Date
  is_first_day : Bool
deriving DecidableEq, Repr

/-- `get_dates`, with the system clock passed explicitly. -/
def get_dates (today : Date) : Dates :=
  let yesterday := today.predDay
  let p :=
    if today.day = 1 then
      let prev_month := Date.predDay ⟨today.year, today.month, 1⟩
      let start_of_prev_month : Date := ⟨prev_month.year, prev_month.month, 1⟩
      (true, start_of_prev_month)
    else
      let start_of_month : Date := ⟨today.year, today.month, 1⟩
      (false, start_of_month)
  let end_of_month : Date := ⟨today.year, today.month, monthLength today.year today.month⟩
  let start_of_next_month := end_of_month.succDay
  { today := today
    yesterday := yesterday
    start_of_next_month := start_of_next_month
    start_date := p.2
    is_first_day := p.1 }

/-- Spec-side notion: the first day of the month preceding `d`'s month. -/
def firstOfPrevMonth (d : Date) : Date :=
  if d.month = 1 then ⟨d.year - 1, 12, 1⟩ else ⟨d.year, d.month - 1, 1⟩

/-- Spec-side notion: the first day of the month following `d`'s month. -/
def firstOfNextMonth (d : Date) : Date :=
  if d.month = 12 then ⟨d.year + 1, 1, 1⟩ else ⟨d.year, d.month + 1, 1⟩

/-! ## `get_exchange_rate` (GMO Coin FX ticker) -/

/-- `DEFAULT_EXCHANGE_RATE = 150.0`. -/
def DEFAULT_EXCHANGE_RATE : ℚ := 150

/-- One record of the ticker payload's `data` list.  `symbol` is looked up
with `.get` (absent → `None`); `ask` is `some r` when the record has an
`ask` field whose text parses as the number `r`, and `none` when the field
is absent (then `float(None)` raises `TypeError`, caught by the handler). -/
structure FxRecord where
  symbol : Option String
  ask : Option ℚ
deriving DecidableEq, Repr

/-- The decoded JSON payload of the ticker: a `status` field and a `data`
list, both looked up with `.get`. -/
structure FxPayload where
  status : Option Int
  data : Option (List FxRecord)
deriving DecidableEq, Repr

/-- The body of an HTTP response from the ticker: either JSON that decodes
to an `FxPayload`, or text that makes `response.json()` raise. -/
inductive FxBody
  | malformed
  | payload (p : FxPayload)
deriving DecidableEq, Repr

/-- Outcome of `requests.get` on the ticker endpoint: the request itself
fails (`RequestException`), or an HTTP response arrives with a status code
and a body. -/
inductive FxOutcome
  | requestError
  | response (httpStatus : Nat) (body : FxBody)
deriving DecidableEq, Repr

/-- `get_exchange_rate`: returns the USD/JPY ask price, falling back to
`DEFAULT_EXCHANGE_RATE` on any failure.  Total by construction: the
`except` clause catches `RequestException` (request failure and
`raise_for_status` on a 4xx/5xx status), `ValueError` (JSON decoding, the
non-zero `status` check, unparseable `ask` text) and `TypeError`
(`float(None)` when the record has no `ask`). -/
def get_exchange_rate (o : FxOutcome) : ℚ :=
  match o with
  | .requestError => DEFAULT_EXCHANGE_RATE
  | .response httpStatus body =>
    if 400 ≤ httpStatus then DEFAULT_EXCHANGE_RATE
    else
      match body with
      | .malformed => DEFAULT_EXCHANGE_RATE
      | .payload p =>
        if p.status ≠ some 0 then DEFAULT_EXCHANGE_RATE
        else
          match (p.data.getD []).find? (fun x => x.symbol == some "USD_JPY") with
          | none => DEFAULT_EXCHANGE_RATE
          | some usd_jpy_data => usd_jpy_data.ask.getD DEFAULT_EXCHANGE_RATE

/-! ## `convert_usd_to_jpy` -/

/-- Python's `int(...)` applied to a float: truncation toward zero. -/
def float_to_int (q : ℚ) : ℤ :=
  if q < 0 then ⌈q⌉ else ⌊q⌋

/-- `convert_usd_to_jpy`: `int(rate * amount)`. -/
def convert_usd_to_jpy (rate amount : ℚ) : ℤ :=
  float_to_int (rate * amount)

/-! ## Cost Explorer response model -/

/-- The `UnblendedCost` record of a grouped result: the `Amount` decimal
string, parsed by `float(...)`, modelled as its rational value.  The
response schema always carries these fields for a group, and both the sort
key and the formatter read them, so they are required. -/
structure UnblendedCost where
  Amount : ℚ
deriving DecidableEq, Repr

/-- The `Metrics` record of a grouped result. -/
structure Metrics where
  UnblendedCost : UnblendedCost
deriving DecidableEq, Repr

/-- One `Groups` entry of a grouped `get_cost_and_usage` response.  `Keys`
is accessed with `.get("Keys")`, so a missing key yields `None`
(modelled `none`) rather than raising at the lookup. -/
structure CostItem where
  Keys : Option (List String)
  Metrics : Metrics
deriving DecidableEq, Repr

/-- The sort key `float(x["Metrics"]["UnblendedCost"]["Amount"])`. -/
def costAmount (c : CostItem) : ℚ :=
  c.Metrics.UnblendedCost.Amount

/-- The comparison performed by
`sorted(costs, key=..., reverse=True)`: `a` may precede `b` when `a`'s
amount is at least `b`'s.  Python's sort is stable, which the stable
`List.mergeSort` mirrors. -/
def costLE (a b : CostItem) : Bool :=
  decide (costAmount b ≤ costAmount a)

/-- The `Total.UnblendedCost` entry of an ungrouped response; every level
is accessed with `.get(..., default)`, so all fields are optional. -/
structure TotalEntry where
  Amount : Option ℚ
deriving DecidableEq, Repr

/-- The `Total` dict of an ungrouped response. -/
structure TotalMetrics where
  UnblendedCost : Option TotalEntry
deriving DecidableEq, Repr

/-- One `ResultsByTime` entry. -/
structure TimeResult where
  Groups : Option (List CostItem)
  Total : Option TotalMetrics
deriving DecidableEq, Repr

/-- A `get_cost_and_usage` response. -/
structure UsageResponse where
  ResultsByTime : Option (List TimeResult)
deriving DecidableEq, Repr

/-- A `get_cost_forecast` response:
`forecast_response.get("Total", {}).get("Amount", 0)`. -/
structure ForecastResponse where
  Total : Option TotalEntry
deriving DecidableEq, Repr

/-- `float(forecast_response.get("Total", {}).get("Amount", 0))`. -/
def forecastAmount (r : ForecastResponse) : ℚ :=
  match r.Total with
  | none => 0
  | some t => t.Amount.getD 0

/-- `response.get("ResultsByTime", [{}])[0]`: the default `[{}]` yields the
empty dict, a present but empty list raises `IndexError`. -/
def firstResult (r : UsageResponse) : Except PyErr TimeResult :=
  match r.ResultsByTime with
  | none => .ok ⟨none, none⟩
  | some [] => .error .indexError
  | some (t :: _) => .ok t

/-- `float(...get("Total", {}).get("UnblendedCost", {}).get("Amount", 0))`. -/
def totalAmount (t : TimeResult) : ℚ :=
  match t.Total with
  | none => 0
  | some tm =>
    match tm.UnblendedCost with
    | none => 0
    | some u => u.Amount.getD 0

/-- Outcome of `requests.post` to the webhook (`raise_for_status`
included): success, or a `RequestException` with its message. -/
inductive PostOutcome
  | success
  | failure (emsg : String)
deriving DecidableEq, Repr

/-- Lambda `event`: `event.get("include_tax", False)`. -/
structure Event where
  include_tax : Option Bool
deriving DecidableEq, Repr

/-- The oracle environment: the system clock and the response each external
service would return if called during this invocation. -/
structure Env where
  today : Date
  sts_account : Except PyErr String
  iam_aliases : Except PyErr (List String)
  ce_grouped : Except PyErr UsageResponse
  ce_total : Except PyErr UsageResponse
  ce_forecast : Except PyErr ForecastResponse
  fx : FxOutcome
  slack_url : Option String
  slack_post : PostOutcome

/-- A request issued to the Cost Explorer API. -/
inductive CECall
  | usage (start end_ : Date) (group_by : Bool)
  | forecast (start end_ : Date)
deriving DecidableEq, Repr

/-! ## `get_account_info`, `get_aws_cost_usage`, `get_aws_cost_forecast` -/

/-- `get_account_info`: STS caller identity, then the first IAM account
alias, `"N/A"` when the alias list is empty.  Failures propagate. -/
def get_account_info (env : Env) : Except PyErr (String × String) := do
  let account_id ← env.sts_account
  let aliases ← env.iam_aliases
  let account_alias := match aliases with
    | [] => "N/A"
    | a :: _ => a
  pure (account_id, account_alias)

/-- `get_aws_cost_usage`: one `get_cost_and_usage` request over
`[start_date, end_date)`, grouped by service iff `group_by`.  Errors are
logged and re-raised. -/
def get_aws_cost_usage (env : Env) (start_date end_date : Date) (group_by : Bool) :
    Except PyErr UsageResponse × List CECall :=
  ((if group_by then env.ce_grouped else env.ce_total),
   [CECall.usage start_date end_date group_by])

/-- `get_aws_cost_forecast`: one `get_cost_forecast` request over
`[start_date, end_date)`.  Errors are logged and re-raised. -/
def get_aws_cost_forecast (env : Env) (start_date end_date : Date) :
    Except PyErr ForecastResponse × List CECall :=
  (env.ce_forecast, [CECall.forecast start_date end_date])

/-! ## `get_cost_data` -/

/-- The list comprehension
`[cost for cost in costs if cost.get("Keys")[0] != "Tax"]`: evaluated left
to right; `cost.get("Keys")` being `None` raises `TypeError` at `[0]`, an
empty `Keys` list raises `IndexError`. -/
def filterNonTax : List CostItem → Except PyErr (List CostItem)
  | [] => .ok []
  | c :: cs =>
    match c.Keys with
    | none => .error .typeError
    | some [] => .error .indexError
    | some (k :: _) =>
      (filterNonTax cs).map (fun rest => if k = "Tax" then rest else c :: rest)

/-- `get_cost_data`: the grouped call, the ungrouped call, the Tax filter,
the stable descending sort, the `[:5]` slice and the total extraction, in
source order.  The first component is the returned value or the raised
exception; the second lists the Cost Explorer requests issued. -/
def get_cost_data (env : Env) (dates : Dates) (include_tax : Bool) :
    Except PyErr (ℚ × List CostItem) × List CECall :=
  let (g, c1) := get_aws_cost_usage env dates.start_date dates.today true
  match g with
  | .error e => (.error e, c1)
  | .ok usage_by_services =>
    let (t, c2) := get_aws_cost_usage env dates.start_date dates.today false
    match t with
    | .error e => (.error e, c1 ++ c2)
    | .ok total_usage =>
      let r : Except PyErr (ℚ × List CostItem) := do
        let tr ← firstResult usage_by_services
        let costs := tr.Groups.getD []
        let costs ← if include_tax then pure costs else filterNonTax costs
        let top5_costs := (costs.mergeSort costLE).take 5
        let tr2 ← firstResult total_usage
        let total_cost_usd := totalAmount tr2
        pure (total_cost_usd, top5_costs)
      (r, c1 ++ c2)

/-! ## Claims about `get_cost_data` -/

/-- A group whose `Keys` is a non-empty list — what the grouped billing
response schema guarantees, and what the unguarded `cost.get("Keys")[0]`
needs in order not to raise. -/
def wellKeyed (c : CostItem) : Bool :=
  match c.Keys with
  | some (_ :: _) => true
  | _ => false

/-- Whether the group's first key is the `"Tax"` category. -/
def firstKeyIsTax (c : CostItem) : Bool :=
  match c.Keys with
  | some (k :: _) => k == "Tax"
  | _ => false

/-- The groups list the code extracts from a grouped response. -/
def groupsOf (u : UsageResponse) : List CostItem :=
  match u.ResultsByTime with
  | some (t :: _) => t.Groups.getD []
  | _ => []

/-- The non-`"Tax"` groups of a grouped response. -/
def nonTaxGroups (u : UsageResponse) : List CostItem :=
  (groupsOf u).filter (fun c => !firstKeyIsTax c)

/-- The total amount the code extracts from an ungrouped response. -/
def respTotal (u : UsageResponse) : ℚ :=
  match u.ResultsByTime with
  | some (t :: _) => totalAmount t
  | _ => 0

/-- Spec-side description of the ranking: tag each group with its position
in the API response, sort by descending amount breaking ties by ascending
position (`List.enumLE costLE` is exactly that order), drop the tags and
keep the first five. -/
def stableTop5Desc (gs : List CostItem) : List CostItem :=
  (((gs.enum).mergeSort (List.enumLE costLE)).map Prod.snd).take 5

/-- A grouped-response entry with a single key and an amount. -/
def mkGroup (k : String) (q : ℚ) : CostItem :=
  ⟨some [k], ⟨⟨q⟩⟩⟩

/-- Witness grouped response: seven categories, `"Tax"` ranking first. -/
def uWitness : UsageResponse :=
  ⟨some [⟨some [mkGroup "Tax" 100, mkGroup "EC2" 50, mkGroup "S3" 50,
                mkGroup "RDS" 40, mkGroup "Lambda" 30, mkGroup "CloudWatch" 20,
                mkGroup "KMS" 10], none⟩]⟩

/-- Witness ungrouped response with total `542`. -/
def tWitness : UsageResponse :=
  ⟨some [⟨none, some ⟨some ⟨some 542⟩⟩⟩]⟩

/-- Witness environment for the successful pipeline. -/
def envWitness : Env :=
  { today := ⟨2025, 3, 15⟩
    sts_account := .ok "123456789012"
    iam_aliases := .ok ["prod"]
    ce_grouped := .ok uWitness
    ce_total := .ok tWitness
    ce_forecast := .ok ⟨some ⟨some 1200⟩⟩
    fx := .response 200 (.payload ⟨some 0, some [⟨some "USD_JPY", some 145⟩]⟩)
    slack_url := none
    slack_post := .success }

/-! ## `get_forecast_data` -/

/-- `get_forecast_data`: on the first day of the month the already computed
total is returned and no forecast request is issued; otherwise one
`get_cost_forecast` request is issued for
`[today, start_of_next_month)` and the response's total amount is
returned.  API errors are logged and re-raised. -/
def get_forecast_data (env : Env) (dates : Dates) (total_cost_usd : ℚ) :
    Except PyErr ℚ × List CECall :=
  if dates.is_first_day then
    (.ok total_cost_usd, [])
  else
    let (r, calls) := get_aws_cost_forecast env dates.today dates.start_of_next_month
    match r with
    | .ok forecast_response => (.ok (forecastAmount forecast_response), calls)
    | .error e => (.error e, calls)

/-! ## Number formatting (Python format mini-language, on the model's ℚ) -/

/-- Insert `','` after every third character; applied to the reversed digit
string, this models the `,` option of Python's format specs. -/
def groupThousandsAux : List Char → List Char
  | [] => []
  | [a] => [a]
  | [a, b] => [a, b]
  | [a, b, c] => [a, b, c]
  | a :: b :: c :: d :: rest => a :: b :: c :: ',' :: groupThousandsAux (d :: rest)

/-- `"{:,}".format(n)` for a natural number. -/
def commaGroup (n : Nat) : String :=
  String.mk ((groupThousandsAux (toString n).toList.reverse).reverse)

/-- `f"{n:,}"` for an `int`. -/
def fmtIntComma (n : ℤ) : String :=
  (if n < 0 then "-" else "") ++ commaGroup n.natAbs

/-- Round to the nearest integer, ties to even — the rounding Python's
fixed-point float formatting performs, transported to the model's ℚ. -/
def roundHalfEven (q : ℚ) : ℤ :=
  let f := ⌊q⌋
  let r := q - f
  if r < 1/2 then f
  else if 1/2 < r then f + 1
  else if f % 2 = 0 then f else f + 1

/-- `f"{q:,.2f}"` (with `comma = true`) and `f"{q:.2f}"` (with
`comma = false`). -/
def fmtFloat2 (comma : Bool) (q : ℚ) : String :=
  let n := roundHalfEven (q * 100)
  let a := n.natAbs
  let whole := a / 100
  let frac := a % 100
  (if q < 0 then "-" else "") ++
    (if comma then commaGroup whole else toString whole) ++ "." ++ padZeros 2 frac

/-! ## `format_cost_message` -/

/-- The `for i, cost in enumerate(top5_costs, start=1)` loop body: the
amount is read through `.get` chains (required in the model) and the
service name through the unguarded `cost.get("Keys")[0]`, which raises on
a missing or empty `Keys` list. -/
def top5Lines (i : Nat) : List CostItem → Except PyErr String
  | [] => .ok ""
  | cost :: rest =>
    match cost.Keys with
    | none => .error .typeError
    | some [] => .error .indexError
    | some (service :: _) =>
      match top5Lines (i + 1) rest with
      | .error e => .error e
      | .ok tail =>
        .ok (toString i ++ ". " ++ fmtFloat2 true (costAmount cost) ++ " USD: " ++
          service ++ "\n" ++ tail)

/-- `format_cost_message`: the fixed message template. -/
def format_cost_message (account_id account_alias display_start_date display_end_date : String)
    (total_cost_usd : ℚ) (total_cost_jpy : ℤ) (forecast_cost_usd : ℚ) (forecast_cost_jpy : ℤ)
    (exchange_rate : ℚ) (top5_costs : List CostItem) : Except PyErr String :=
  let header :=
    "\nアカウント: " ++ account_alias ++ " (" ++ account_id ++ ")\n期間: " ++
      display_start_date ++ " - " ++ display_end_date ++ "\n\n利用額: " ++
      fmtFloat2 true total_cost_usd ++ " USD / " ++ fmtIntComma total_cost_jpy ++
      " 円\n予想金額: " ++ fmtFloat2 true forecast_cost_usd ++ " USD / " ++
      fmtIntComma forecast_cost_jpy ++ " 円\n* 為替レート: 1 USD = " ++
      fmtFloat2 false exchange_rate ++ " 円\n\nTop5:\n"
  match top5Lines 1 top5_costs with
  | .error e => .error e
  | .ok body => .ok (header ++ body)

/-! ## `send_message_to_slack` and `main` -/

/-- The JSON body posted to the webhook: `{"text": message}`. -/
structure SlackBody where
  text : String
deriving DecidableEq, Repr

/-- Observable side effects of a run. -/
inductive Effect
  | httpPost (url : String) (body : SlackBody)
  | printStdout (msg : String)
  | logError (emsg : String)
deriving DecidableEq, Repr

/-- Rendering of a raised exception for the top-level error log. -/
def describeErr : PyErr → String
  | .typeError => "TypeError"
  | .indexError => "IndexError"
  | .apiError m => m

/-- `send_message_to_slack`: when `SLACK_WEBHOOK_URL` is set, post
`{"text": message}` and log (not raise) any `RequestException`, including
the one `raise_for_status` produces for an error status; when unset, print
the message to stdout and make no request.  Total: no outcome raises. -/
def send_message_to_slack (slack_url : Option String) (post : PostOutcome)
    (message : String) : List Effect :=
  match slack_url with
  | some url =>
    Effect.httpPost url ⟨message⟩ ::
      (match post with
       | .success => []
       | .failure emsg => [Effect.logError emsg])
  | none => [Effect.printStdout message]

/-- The HTTP posts among a run's effects. -/
def postsOf (effs : List Effect) : List (String × SlackBody) :=
  effs.filterMap fun e =>
    match e with
    | .httpPost u b => some (u, b)
    | _ => none

/-- The stdout writes among a run's effects. -/
def printsOf (effs : List Effect) : List String :=
  effs.filterMap fun e =>
    match e with
    | .printStdout m => some m
    | _ => none

/-- The body of `main`'s `try` block: dates, account info, cost data,
exchange rate and conversions, forecast, message formatting — in source
order, each fallible step short-circuiting.  Returns the formatted message
and the Cost Explorer requests issued. -/
def runPipeline (event : Event) (env : Env) : Except PyErr (String × List CECall) :=
  let include_tax := event.include_tax.getD false
  let dates := get_dates env.today
  match get_account_info env with
  | .error e => .error e
  | .ok (account_id, account_alias) =>
    match get_cost_data env dates include_tax with
    | (.error e, _) => .error e
    | (.ok (total_cost_usd, top5_costs), ceCalls) =>
      let exchange_rate := get_exchange_rate env.fx
      let total_cost_jpy := convert_usd_to_jpy exchange_rate total_cost_usd
      match get_forecast_data env dates total_cost_usd with
      | (.error e, _) => .error e
      | (.ok forecast_cost_usd, fCalls) =>
        let forecast_cost_jpy := convert_usd_to_jpy exchange_rate forecast_cost_usd
        match format_cost_message account_id account_alias
            (strftimeYMD dates.start_date) (strftimeYMD dates.yesterday)
            total_cost_usd total_cost_jpy forecast_cost_usd forecast_cost_jpy
            exchange_rate top5_costs with
        | .error e => .error e
        | .ok message => .ok (message, ceCalls ++ fCalls)

/-- `main`: run the pipeline inside the catch-all `try`; on success deliver
the message, on any exception log it and return normally.  (Namespaced
because a bare `main` is reserved in Lean.) -/
def CostReport.main (event : Event) (env : Env) : List Effect :=
  match runPipeline event env with
  | .ok (message, _) => send_message_to_slack env.slack_url env.slack_post message
  | .error e => [Effect.logError (describeErr e)]

/-- The five services the witness run reports. -/
def top5Witness : List CostItem :=
  [mkGroup "EC2" 50, mkGroup "S3" 50, mkGroup "RDS" 40,
   mkGroup "Lambda" 30, mkGroup "CloudWatch" 20]

/-- The non-Tax groups of `uWitness`. -/
def nonTaxWitness : List CostItem :=
  [mkGroup "EC2" 50, mkGroup "S3" 50, mkGroup "RDS" 40,
   mkGroup "Lambda" 30, mkGroup "CloudWatch" 20, mkGroup "KMS" 10]

/-- The report message produced by the witness run. -/
def msgWitness : String :=
  "\nアカウント: prod (123456789012)\n期間: 2025-03-01 - 2025-03-14\n\n利用額: 542.00 USD / 78,590 円\n予想金額: 1,200.00 USD / 174,000 円\n* 為替レート: 1 USD = 145.00 円\n\nTop5:\n1. 50.00 USD: EC2\n2. 50.00 USD: S3\n3. 40.00 USD: RDS\n4. 30.00 USD: Lambda\n5. 20.00 USD: CloudWatch\n"

/-- The Cost Explorer requests of the witness run. -/
def callsWitness : List CECall :=
  [.usage ⟨2025, 3, 1⟩ ⟨2025, 3, 15⟩ true,
   .usage ⟨2025, 3, 1⟩ ⟨2025, 3, 15⟩ false,
   .forecast ⟨2025, 3, 15⟩ ⟨2025, 4, 1⟩]

/-- **C2.** `get_dates`: the window start is the 1st of the previous month
when today is the 1st, otherwise the 1st of the current month; and
`start_of_next_month` is the day after the current month's last day, which
is the 1st of the following month. -/
theorem get_dates_start_date_and_next_month (t : Date) (hv : t.Valid) :
    ((get_dates t).start_date =
       if t.day = 1 then firstOfPrevMonth t else ⟨t.year, t.month, 1⟩) ∧
    (get_dates t).start_of_next_month =
      Date.succDay ⟨t.year, t.month, monthLength t.year t.month⟩ ∧
    (get_dates t).start_of_next_month = firstOfNextMonth t ∧
    (get_dates t).is_first_day = (t.day == 1) := by
  obtain ⟨hy, hm1, hm12, hd1, hd2⟩ := hv
  refine ⟨?_, ?_, ?_, ?_⟩
  · by_cases hd : t.day = 1
    · by_cases hm : t.month = 1
      · simp [get_dates, Date.predDay, firstOfPrevMonth, hd, hm]
      · have hm' : 1 < t.month := by omega
        simp [get_dates, Date.predDay, firstOfPrevMonth, hd, hm, hm']
    · simp [get_dates, hd]
  · simp [get_dates]
  · by_cases hm : t.month = 12
    · simp [get_dates, Date.succDay, firstOfNextMonth, hm]
    · have hm' : t.month < 12 := by omega
      simp [get_dates, Date.succDay, firstOfNextMonth, hm, hm']
  · by_cases hd : t.day = 1 <;> simp [get_dates, hd]

/-- Witness for C2 at 2025-03-15. -/
theorem get_dates_start_date_and_next_month_witness :
    (Date.Valid ⟨2025, 3, 15⟩) ∧
    (((get_dates ⟨2025, 3, 15⟩).start_date =
        if (15:Nat) = 1 then firstOfPrevMonth ⟨2025, 3, 15⟩ else ⟨2025, 3, 1⟩) ∧
     (get_dates ⟨2025, 3, 15⟩).start_of_next_month =
       Date.succDay ⟨2025, 3, monthLength 2025 3⟩ ∧
     (get_dates ⟨2025, 3, 15⟩).start_of_next_month = firstOfNextMonth ⟨2025, 3, 15⟩ ∧
     (get_dates ⟨2025, 3, 15⟩).is_first_day = ((15:Nat) == 1)) :=
  ⟨by decide, get_dates_start_date_and_next_month ⟨2025, 3, 15⟩ (by decide)⟩

/-- **C6.** The billing window start produced by `get_dates` is strictly
earlier than today, so the half-open window `[start_date, today)` is
nonempty and meets the API's `start < end` requirement. -/
theorem get_dates_start_lt_today (t : Date) (hv : t.Valid) :
    Date.lt (get_dates t).start_date t := by
  obtain ⟨hy, hm1, hm12, hd1, hd2⟩ := hv
  by_cases hd : t.day = 1
  · by_cases hm : t.month = 1
    · simp [get_dates, Date.predDay, Date.lt, hd, hm]
      omega
    · have hm' : 1 < t.month := by omega
      simp [get_dates, Date.predDay, Date.lt, hd, hm, hm']
      omega
  · simp [get_dates, Date.lt, hd]
    omega

/-- Witness for C6 at 2025-03-15. -/
theorem get_dates_start_lt_today_witness :
    (Date.Valid ⟨2025, 3, 15⟩) ∧ Date.lt (get_dates ⟨2025, 3, 15⟩).start_date ⟨2025, 3, 15⟩ :=
  ⟨by decide, get_dates_start_lt_today ⟨2025, 3, 15⟩ (by decide)⟩

/-- **C4.** `get_exchange_rate` returns the default rate `150.0` on every
failure mode (request failure, HTTP error status such as 500, non-zero
payload status, malformed payload, no `USD_JPY` record) without raising —
it is a total function — and on a well-formed payload containing the
`USD_JPY` record it returns that record's ask price. -/
theorem get_exchange_rate_spec :
    (get_exchange_rate .requestError = 150) ∧
    (∀ b, get_exchange_rate (.response 500 b) = 150) ∧
    (∀ st b, 400 ≤ st → get_exchange_rate (.response st b) = 150) ∧
    (∀ st, st < 400 → get_exchange_rate (.response st .malformed) = 150) ∧
    (∀ st p, st < 400 → p.status ≠ some 0 →
      get_exchange_rate (.response st (.payload p)) = 150) ∧
    (∀ st p, st < 400 →
      (p.data.getD []).find? (fun x => x.symbol == some "USD_JPY") = none →
      get_exchange_rate (.response st (.payload p)) = 150) ∧
    (∀ st p r rec, st < 400 → p.status = some 0 →
      (p.data.getD []).find? (fun x => x.symbol == some "USD_JPY") = some rec →
      rec.ask = some r →
      get_exchange_rate (.response st (.payload p)) = r) := by
  refine ⟨rfl, ?_, ?_, ?_, ?_, ?_, ?_⟩
  · intro b
    simp [get_exchange_rate, DEFAULT_EXCHANGE_RATE]
  · intro st b h
    simp [get_exchange_rate, DEFAULT_EXCHANGE_RATE, h]
  · intro st h
    simp [get_exchange_rate, DEFAULT_EXCHANGE_RATE, (show ¬ 400 ≤ st by omega)]
  · intro st p h hs
    simp [get_exchange_rate, DEFAULT_EXCHANGE_RATE, (show ¬ 400 ≤ st by omega), hs]
  · intro st p h hfind
    by_cases hs : p.status = some 0
    · simp [get_exchange_rate, DEFAULT_EXCHANGE_RATE, (show ¬ 400 ≤ st by omega), hs, hfind]
    · simp [get_exchange_rate, DEFAULT_EXCHANGE_RATE, (show ¬ 400 ≤ st by omega), hs]
  · intro st p r rec h hs hfind hask
    simp [get_exchange_rate, DEFAULT_EXCHANGE_RATE, (show ¬ 400 ≤ st by omega), hs, hfind, hask]

/-- Witness for C4: a 500 response, a payload without the pair, and a
well-formed payload with `USD_JPY` ask `152.34`. -/
theorem get_exchange_rate_spec_witness :
    (get_exchange_rate (.response 500 (.payload ⟨some 0, some [⟨some "USD_JPY", some (15234/100)⟩]⟩)) = 150) ∧
    (get_exchange_rate (.response 200 (.payload ⟨some 0, some [⟨some "EUR_JPY", some 170⟩]⟩)) = 150) ∧
    (get_exchange_rate (.response 200 (.payload ⟨some 0,
        some [⟨some "EUR_JPY", some 170⟩, ⟨some "USD_JPY", some (15234/100)⟩]⟩)) = 15234/100) := by
  refine ⟨?_, ?_, ?_⟩
  · exact get_exchange_rate_spec.2.1 _
  · exact get_exchange_rate_spec.2.2.2.2.2.1 200 _ (by omega) rfl
  · exact get_exchange_rate_spec.2.2.2.2.2.2 200 _ (15234/100) ⟨some "USD_JPY", some (15234/100)⟩
      (by omega) rfl rfl rfl

/-- **C5 (counterexample).** The claim says `convert_usd_to_jpy` equals
`floor(rate * amount)` for every rate and amount; at rate `3.0` and amount
`-0.5` (product exactly `-1.5`, also as floats) the code returns
`int(-1.5) = -1` while the floor is `-2`. -/
theorem convert_usd_to_jpy_floor_counterexample :
    ¬ convert_usd_to_jpy 3 (-1/2) = ⌊(3 : ℚ) * (-1/2)⌋ := by
  have h1 : ⌊(3 : ℚ) * (-1/2)⌋ = -2 := by norm_num
  have h2 : convert_usd_to_jpy 3 (-1/2) = -1 := by
    simp only [convert_usd_to_jpy, float_to_int]
    rw [if_pos (by norm_num), (show (3 : ℚ) * (-1/2) = -(3/2) by norm_num), Int.ceil_neg]
    norm_num
  rw [h1, h2]
  decide

/-- **C5 (amended).** `convert_usd_to_jpy` truncates toward zero; it equals
`floor(rate * amount)` whenever the product is nonnegative (in particular
for the claim's positive examples: `150.0 × 10.004 → 1500`,
`145.0 × 542.10 → 78604`, `145.0 × 1200.00 → 174000`), but for a negative
product it returns the ceiling, not the floor. -/
theorem convert_usd_to_jpy_trunc :
    (∀ rate amount : ℚ, 0 ≤ rate * amount →
      convert_usd_to_jpy rate amount = ⌊rate * amount⌋) ∧
    convert_usd_to_jpy 150 (10004/1000) = 1500 ∧
    convert_usd_to_jpy 145 (5421/10) = 78604 ∧
    convert_usd_to_jpy 145 1200 = 174000 ∧
    (∀ rate amount : ℚ, rate * amount < 0 →
      convert_usd_to_jpy rate amount = ⌈rate * amount⌉) := by
  have ex : ∀ a b : ℚ, ∀ n : ℤ, ¬ a * b < 0 → ⌊a * b⌋ = n → convert_usd_to_jpy a b = n := by
    intro a b n hneg hfl
    simp only [convert_usd_to_jpy, float_to_int]
    rw [if_neg hneg]
    exact hfl
  refine ⟨?_, ?_, ?_, ?_, ?_⟩
  · intro rate amount h
    simp [convert_usd_to_jpy, float_to_int, not_lt.mpr h]
  · exact ex 150 (10004/1000) 1500 (by norm_num) (by norm_num)
  · exact ex 145 (5421/10) 78604 (by norm_num) (by norm_num)
  · exact ex 145 1200 174000 (by norm_num) (by norm_num)
  · intro rate amount h
    simp [convert_usd_to_jpy, float_to_int, h]

/-- Witness for C5 (amended) at the claim's example `145.0 × 542.10`. -/
theorem convert_usd_to_jpy_trunc_witness :
    (0 ≤ (145 : ℚ) * (5421/10)) ∧ convert_usd_to_jpy 145 (5421/10) = ⌊(145 : ℚ) * (5421/10)⌋ :=
  ⟨by norm_num, convert_usd_to_jpy_trunc.1 145 (5421/10) (by norm_num)⟩

theorem costLE_trans : ∀ a b c, costLE a b → costLE b c → costLE a c := by
  intro a b c
  simp only [costLE, decide_eq_true_eq]
  exact fun h1 h2 => le_trans h2 h1

theorem costLE_total : ∀ a b, costLE a b || costLE b a := by
  intro a b
  simp only [costLE, Bool.or_eq_true, decide_eq_true_eq]
  exact (le_total (costAmount b) (costAmount a))

/-- The spec-side ranking coincides with the code's
`sorted(costs, key=..., reverse=True)[:5]`: stability of `mergeSort`. -/
theorem stableTop5Desc_eq (gs : List CostItem) :
    stableTop5Desc gs = (gs.mergeSort costLE).take 5 := by
  unfold stableTop5Desc
  rw [List.mergeSort_enum]

/-- Evaluation rule for inputs already in ranked order. -/
theorem stableTop5Desc_of_sorted (gs : List CostItem)
    (h : gs.enum.Pairwise (fun a b => List.enumLE costLE a b = true)) :
    stableTop5Desc gs = gs.take 5 := by
  unfold stableTop5Desc
  rw [List.mergeSort_of_sorted h, List.enum_map_snd]

/-- Under the precondition that every group has a non-empty `Keys` list,
the Tax comprehension returns the non-Tax groups without raising. -/
theorem filterNonTax_ok (gs : List CostItem) (h : ∀ c ∈ gs, wellKeyed c = true) :
    filterNonTax gs = .ok (gs.filter (fun c => !firstKeyIsTax c)) := by
  induction gs with
  | nil => rfl
  | cons c cs ih =>
    have hc := h c (by simp)
    have hcs := ih (fun x hx => h x (by simp [hx]))
    match hKeys : c.Keys with
    | none => simp [wellKeyed, hKeys] at hc
    | some [] => simp [wellKeyed, hKeys] at hc
    | some (k :: ks) =>
      simp only [filterNonTax, hKeys, hcs, Except.map, List.filter_cons, firstKeyIsTax]
      by_cases hk : k = "Tax" <;> simp [hk]

/-- If some group has a missing or empty `Keys` list, the comprehension
raises. -/
theorem filterNonTax_err (gs : List CostItem)
    (h : ∃ c ∈ gs, c.Keys = none ∨ c.Keys = some []) :
    ∃ e, filterNonTax gs = .error e := by
  induction gs with
  | nil => simp at h
  | cons c cs ih =>
    match hKeys : c.Keys with
    | none => exact ⟨.typeError, by simp [filterNonTax, hKeys]⟩
    | some [] => exact ⟨.indexError, by simp [filterNonTax, hKeys]⟩
    | some (k :: ks) =>
      have hrest : ∃ x ∈ cs, x.Keys = none ∨ x.Keys = some [] := by
        rcases h with ⟨x, hx, hbad⟩
        rcases List.mem_cons.mp hx with rfl | hx'
        · rw [hKeys] at hbad
          rcases hbad with h' | h' <;> simp at h'
        · exact ⟨x, hx', hbad⟩
      obtain ⟨e, he⟩ := ih hrest
      exact ⟨e, by simp [filterNonTax, hKeys, he, Except.map]⟩

/-- **C1.** For every grouped billing response (schema: at least one
`ResultsByTime` bucket, every group with a non-empty `Keys` list) and
ungrouped total response, `get_cost_data` with `include_tax = false` drops
every group whose first key is `"Tax"` before ranking, returns the
(at most) top five of the remaining groups ordered by descending unblended
cost with ties in original API order (`stableTop5Desc`), and the dropped
groups count toward neither the ranking nor the five; with
`include_tax = true` no group is dropped. -/
theorem get_cost_data_top5 (env : Env) (dates : Dates) (u t : UsageResponse)
    (hg : env.ce_grouped = .ok u) (ht : env.ce_total = .ok t)
    (hu1 : u.ResultsByTime ≠ some []) (ht1 : t.ResultsByTime ≠ some [])
    (hWF : ∀ c ∈ groupsOf u, wellKeyed c = true) :
    ((get_cost_data env dates false).1 = .ok (respTotal t, stableTop5Desc (nonTaxGroups u)) ∧
     (∀ c ∈ stableTop5Desc (nonTaxGroups u), firstKeyIsTax c = false) ∧
     (stableTop5Desc (nonTaxGroups u)).length = min 5 (nonTaxGroups u).length ∧
     (stableTop5Desc (nonTaxGroups u)).Pairwise (fun a b => costAmount b ≤ costAmount a)) ∧
    (get_cost_data env dates true).1 = .ok (respTotal t, stableTop5Desc (groupsOf u)) := by
  have hfil : filterNonTax (groupsOf u) = .ok (nonTaxGroups u) := filterNonTax_ok _ hWF
  have hmain : ∀ b : Bool, (get_cost_data env dates b).1 =
      .ok (respTotal t,
        ((if b then groupsOf u else nonTaxGroups u).mergeSort costLE).take 5) := by
    intro b
    rcases hru : u.ResultsByTime with _ | ⟨_ | ⟨r, rs⟩⟩
    all_goals rcases hrt : t.ResultsByTime with _ | ⟨_ | ⟨r2, rs2⟩⟩
    all_goals first
      | exact absurd hru hu1
      | exact absurd hrt ht1
      | (cases b <;>
          simp_all [get_cost_data, get_aws_cost_usage, firstResult, groupsOf,
            nonTaxGroups, respTotal, totalAmount, Except.instMonad, Except.bind,
            Except.map, Except.pure, bind, pure, hfil])
  refine ⟨⟨?_, ?_, ?_, ?_⟩, ?_⟩
  · rw [hmain false, stableTop5Desc_eq]
    simp
  · intro c hc
    rw [stableTop5Desc_eq] at hc
    have hmem : c ∈ (nonTaxGroups u).mergeSort costLE :=
      (List.take_sublist 5 _).subset hc
    have hmem2 : c ∈ nonTaxGroups u := List.mem_mergeSort.mp hmem
    have := (List.mem_filter.mp hmem2).2
    simpa using this
  · rw [stableTop5Desc_eq]
    simp
  · rw [stableTop5Desc_eq]
    refine List.Pairwise.sublist (List.take_sublist 5 _) ?_
    have hs := List.sorted_mergeSort costLE_trans costLE_total (nonTaxGroups u)
    exact hs.imp (by simp [costLE])
  · rw [hmain true, stableTop5Desc_eq]
    simp

/-- Witness for C1: with seven categories and `"Tax"` ranked first,
`include_tax = false` excludes it from ranking and count while
`include_tax = true` keeps it; the `EC2`/`S3` tie keeps API order. -/
theorem get_cost_data_top5_witness :
    (∀ c ∈ groupsOf uWitness, wellKeyed c = true) ∧
    (get_cost_data envWitness (get_dates ⟨2025, 3, 15⟩) false).1 =
      .ok (542, [mkGroup "EC2" 50, mkGroup "S3" 50, mkGroup "RDS" 40,
                 mkGroup "Lambda" 30, mkGroup "CloudWatch" 20]) ∧
    (get_cost_data envWitness (get_dates ⟨2025, 3, 15⟩) true).1 =
      .ok (542, [mkGroup "Tax" 100, mkGroup "EC2" 50, mkGroup "S3" 50,
                 mkGroup "RDS" 40, mkGroup "Lambda" 30]) := by
  have h := get_cost_data_top5 envWitness (get_dates ⟨2025, 3, 15⟩) uWitness tWitness
    rfl rfl (by simp [uWitness]) (by simp [tWitness]) (by decide)
  refine ⟨by decide, ?_, ?_⟩
  · rw [h.1.1, stableTop5Desc_of_sorted _ (by decide)]
    rfl
  · rw [h.2, stableTop5Desc_of_sorted _ (by decide)]
    rfl

/-- **C9.** The Tax filter evaluates `cost.get("Keys")[0]` unguarded: under
the precondition that every group carries a non-empty `Keys` list the
comprehension is total, but for any grouped response containing a group
with a missing or empty `Keys` list, `get_cost_data` with
`include_tax = false` raises instead of skipping that group. -/
theorem get_cost_data_unguarded_keys :
    (∀ gs : List CostItem, (∀ c ∈ gs, wellKeyed c = true) →
      ∃ l, filterNonTax gs = .ok l) ∧
    (∀ env dates u, env.ce_grouped = .ok u →
      (∃ c ∈ groupsOf u, c.Keys = none ∨ c.Keys = some []) →
      ∃ e, (get_cost_data env dates false).1 = .error e) := by
  constructor
  · intro gs h
    exact ⟨_, filterNonTax_ok gs h⟩
  · intro env dates u hg hbad
    rcases hct : env.ce_total with e' | t
    · exact ⟨e', by simp [get_cost_data, get_aws_cost_usage, hg, hct]⟩
    · have hne : groupsOf u ≠ [] := by
        rcases hbad with ⟨c, hc, _⟩
        exact fun h0 => by simp [h0] at hc
      rcases hru : u.ResultsByTime with _ | ⟨_ | ⟨r, rs⟩⟩
      · exact absurd (by simp [groupsOf, hru]) hne
      · exact absurd (by simp [groupsOf, hru]) hne
      · obtain ⟨e, he⟩ := filterNonTax_err (groupsOf u) hbad
        refine ⟨e, ?_⟩
        have hgs : r.Groups.getD [] = groupsOf u := by simp [groupsOf, hru]
        simp [get_cost_data, get_aws_cost_usage, hg, hct, firstResult, hru,
          Except.instMonad, Except.bind, bind, hgs, he]

/-- **C3.** If `is_first_day` then `get_forecast_data` returns
`total_cost_usd` unchanged and issues no forecast request; otherwise it
issues exactly one forecast request, for
`[today, start_of_next_month)`, and when that call succeeds it returns the
response's total projected amount. -/
theorem get_forecast_data_spec (env : Env) (dates : Dates) (total_cost_usd : ℚ) :
    (dates.is_first_day = true →
      get_forecast_data env dates total_cost_usd = (.ok total_cost_usd, [])) ∧
    (dates.is_first_day = false →
      (get_forecast_data env dates total_cost_usd).2 =
        [CECall.forecast dates.today dates.start_of_next_month] ∧
      ∀ resp, env.ce_forecast = .ok resp →
        (get_forecast_data env dates total_cost_usd).1 = .ok (forecastAmount resp)) := by
  constructor
  · intro h
    simp [get_forecast_data, h]
  · intro h
    constructor
    · rcases hr : env.ce_forecast with e | resp <;>
        simp [get_forecast_data, h, get_aws_cost_forecast, hr]
    · intro resp hresp
      simp [get_forecast_data, h, get_aws_cost_forecast, hresp]

/-- Witness for C3: both branches at concrete dates. -/
theorem get_forecast_data_spec_witness :
    ((get_dates ⟨2025, 3, 1⟩).is_first_day = true →
      get_forecast_data envWitness (get_dates ⟨2025, 3, 1⟩) 542 = (.ok 542, [])) ∧
    ((get_dates ⟨2025, 3, 15⟩).is_first_day = false) ∧
    (get_forecast_data envWitness (get_dates ⟨2025, 3, 15⟩) 542).2 =
      [CECall.forecast (get_dates ⟨2025, 3, 15⟩).today
        (get_dates ⟨2025, 3, 15⟩).start_of_next_month] ∧
    (get_forecast_data envWitness (get_dates ⟨2025, 3, 15⟩) 542).1 =
      .ok (forecastAmount ⟨some ⟨some 1200⟩⟩) := by
  have h1 := (get_forecast_data_spec envWitness (get_dates ⟨2025, 3, 1⟩) 542).1
  have h2 := (get_forecast_data_spec envWitness (get_dates ⟨2025, 3, 15⟩) 542).2 (by decide)
  exact ⟨fun _ => h1 rfl, by decide, h2.1, h2.2 _ rfl⟩

/-- Witness for C9: a response whose second group has an empty `Keys`
list makes `get_cost_data` raise. -/
theorem get_cost_data_unguarded_keys_witness :
    (∃ c ∈ groupsOf ⟨some [⟨some [⟨some ["EC2"], ⟨⟨50⟩⟩⟩, ⟨some [], ⟨⟨7⟩⟩⟩], none⟩]⟩,
        c.Keys = none ∨ c.Keys = some []) ∧
    ∃ e, (get_cost_data
        { envWitness with
            ce_grouped := .ok ⟨some [⟨some [⟨some ["EC2"], ⟨⟨50⟩⟩⟩, ⟨some [], ⟨⟨7⟩⟩⟩], none⟩]⟩ }
        (get_dates ⟨2025, 3, 15⟩) false).1 = .error e := by
  refine ⟨⟨⟨some [], ⟨⟨7⟩⟩⟩, by decide, by decide⟩, ?_⟩
  exact get_cost_data_unguarded_keys.2 _ _ _ rfl
    ⟨⟨some [], ⟨⟨7⟩⟩⟩, by decide, by decide⟩

/-- **C7.** With the webhook URL set, `send_message_to_slack` performs
exactly one HTTP post of `{"text": message}` and writes nothing to stdout;
a transport failure only adds an error log (no exception, same post);
with the URL unset it writes the message to stdout and makes no request.
The function is total, so no outcome raises or aborts the run. -/
theorem send_message_to_slack_spec (post : PostOutcome) (message : String) :
    (∀ url, postsOf (send_message_to_slack (some url) post message) =
        [(url, ⟨message⟩)] ∧
      printsOf (send_message_to_slack (some url) post message) = []) ∧
    (∀ url emsg, send_message_to_slack (some url) (.failure emsg) message =
      [Effect.httpPost url ⟨message⟩, Effect.logError emsg]) ∧
    (postsOf (send_message_to_slack none post message) = [] ∧
     printsOf (send_message_to_slack none post message) = [message]) := by
  refine ⟨?_, ?_, ?_, ?_⟩
  · intro url
    cases post <;> simp [send_message_to_slack, postsOf, printsOf]
  · intro url emsg
    rfl
  · cases post <;> simp [send_message_to_slack, postsOf]
  · cases post <;> simp [send_message_to_slack, printsOf]

/-- **C8.** Every exception raised inside `main`'s pipeline (identity,
billing, forecast, …) is caught by the single catch-all: `main` returns
normally with only an error-log effect — no notification is posted, nothing
is printed, and the effect shape does not distinguish error types. -/
theorem main_catch_all (event : Event) (env : Env) (e : PyErr)
    (h : runPipeline event env = .error e) :
    CostReport.main event env = [Effect.logError (describeErr e)] ∧
    postsOf (CostReport.main event env) = [] ∧
    printsOf (CostReport.main event env) = [] := by
  simp [CostReport.main, h, postsOf, printsOf]

/-- Witness for C8: a failing STS call aborts the run with only a log. -/
theorem main_catch_all_witness :
    runPipeline ⟨none⟩ { envWitness with sts_account := .error (.apiError "boom") } =
      .error (.apiError "boom") ∧
    CostReport.main ⟨none⟩ { envWitness with sts_account := .error (.apiError "boom") } =
      [Effect.logError "boom"] ∧
    postsOf (CostReport.main ⟨none⟩
      { envWitness with sts_account := .error (.apiError "boom") }) = [] ∧
    printsOf (CostReport.main ⟨none⟩
      { envWitness with sts_account := .error (.apiError "boom") }) = [] :=
  ⟨rfl, main_catch_all ⟨none⟩ _ (.apiError "boom") rfl⟩

/-- The day before `t` is the latest date strictly before `t`: for valid
dates, `d < t` iff `d ≤ t - timedelta(days=1)`. -/
theorem lt_iff_le_predDay (t d : Date) (ht : t.Valid) (hd : d.Valid) :
    Date.lt d t ↔ Date.le d t.predDay := by
  obtain ⟨ty, tm, td⟩ := t
  obtain ⟨dy, dm, dd⟩ := d
  obtain ⟨hty, htm1, htm12, htd1, htd2⟩ := ht
  obtain ⟨hdy, hdm1, hdm12, hdd1, hdd2⟩ := hd
  simp only at hty htm1 htm12 htd1 htd2 hdy hdm1 hdm12 hdd1 hdd2
  by_cases h1 : 1 < td
  · simp only [Date.predDay, if_pos h1, Date.lt, Date.le, Date.mk.injEq]
    omega
  · have htd : td = 1 := by omega
    by_cases h2 : 1 < tm
    · have hL : dy = ty → dm = tm - 1 → dd ≤ monthLength ty (tm - 1) := by
        intro hY hM
        rw [← hY, ← hM]
        exact hdd2
      simp only [Date.predDay, Date.lt, Date.le, Date.mk.injEq]
      rw [if_neg h1, if_pos h2]
      simp only [Date.lt, Date.le, Date.mk.injEq]
      omega
    · have htm : tm = 1 := by omega
      have hL : dm = 12 → dd ≤ 31 := by
        intro hM
        have h31 : monthLength dy dm = 31 := by
          rw [hM]
          simp [monthLength]
        omega
      simp only [Date.predDay, Date.lt, Date.le, Date.mk.injEq]
      rw [if_neg h1, if_neg h2]
      simp only [Date.lt, Date.le, Date.mk.injEq]
      omega

/-- Every successfully formatted message contains the
`期間: <start> - <end>` segment built from the display dates it was
given. -/
theorem format_cost_message_range (aid aal ds de : String) (tu : ℚ) (tj : ℤ)
    (fu : ℚ) (fj : ℤ) (r : ℚ) (g : List CostItem) (msg : String)
    (h : format_cost_message aid aal ds de tu tj fu fj r g = .ok msg) :
    ∃ pre post, msg = pre ++ (ds ++ " - " ++ de) ++ post := by
  simp only [format_cost_message] at h
  rcases hb : top5Lines 1 g with e | body
  · rw [hb] at h
    simp at h
  · rw [hb] at h
    simp only [Except.ok.injEq] at h
    refine ⟨"\nアカウント: " ++ aal ++ " (" ++ aid ++ ")\n期間: ",
      "\n\n利用額: " ++ fmtFloat2 true tu ++ " USD / " ++ fmtIntComma tj ++
      " 円\n予想金額: " ++ fmtFloat2 true fu ++ " USD / " ++ fmtIntComma fj ++
      " 円\n* 為替レート: 1 USD = " ++ fmtFloat2 false r ++ " 円\n\nTop5:\n" ++ body, ?_⟩
    rw [← h]
    simp only [String.append_assoc]

/-- **C10.** In every successful run the date range printed in the report
ends at `yesterday = today - 1 day`, not at the billing query's exclusive
end bound `today`; consequently the displayed inclusive range
`[start_date, yesterday]` contains exactly the days of the half-open
billing window `[start_date, today)`. -/
theorem main_display_range (event : Event) (env : Env) (msg : String)
    (calls : List CECall) (hv : env.today.Valid)
    (h : runPipeline event env = .ok (msg, calls)) :
    (get_dates env.today).yesterday = env.today.predDay ∧
    (∃ pre post, msg = pre ++
      (strftimeYMD (get_dates env.today).start_date ++ " - " ++
       strftimeYMD (get_dates env.today).yesterday) ++ post) ∧
    (∀ d : Date, d.Valid →
      (Date.le (get_dates env.today).start_date d ∧ Date.lt d env.today ↔
       Date.le (get_dates env.today).start_date d ∧
         Date.le d (get_dates env.today).yesterday)) := by
  refine ⟨rfl, ?_, ?_⟩
  · simp only [runPipeline] at h
    rcases ha : get_account_info env with e | ⟨aid, aal⟩
    · rw [ha] at h
      simp at h
    · rw [ha] at h
      rcases hc : get_cost_data env (get_dates env.today) (event.include_tax.getD false)
        with ⟨cr, ceCalls⟩
      rw [hc] at h
      rcases cr with e | ⟨tu, top5⟩
      · simp at h
      · dsimp only at h
        rcases hf : get_forecast_data env (get_dates env.today) tu with ⟨fr, fCalls⟩
        rw [hf] at h
        rcases fr with e | fu
        · simp at h
        · dsimp only at h
          rcases hm : format_cost_message aid aal
              (strftimeYMD (get_dates env.today).start_date)
              (strftimeYMD (get_dates env.today).yesterday)
              tu (convert_usd_to_jpy (get_exchange_rate env.fx) tu)
              fu (convert_usd_to_jpy (get_exchange_rate env.fx) fu)
              (get_exchange_rate env.fx) top5 with e | m
          · rw [hm] at h
            simp at h
          · rw [hm] at h
            simp only [Except.ok.injEq, Prod.mk.injEq] at h
            obtain ⟨hmsg, -⟩ := h
            subst hmsg
            exact format_cost_message_range _ _ _ _ _ _ _ _ _ _ _ hm
  · intro d hd
    have hy : (get_dates env.today).yesterday = env.today.predDay := rfl
    rw [hy]
    exact and_congr_right fun _ => lt_iff_le_predDay env.today d hv hd

/-- `int()` of an integral float is that integer. -/
theorem float_to_int_intCast (n : ℤ) : float_to_int ((n : ℤ) : ℚ) = n := by
  simp only [float_to_int]
  split
  · exact Int.ceil_intCast n
  · exact Int.floor_intCast n

/-- Rounding an integral value is the identity. -/
theorem roundHalfEven_intCast (n : ℤ) : roundHalfEven ((n : ℤ) : ℚ) = n := by
  simp only [roundHalfEven, Int.floor_intCast, sub_self]
  norm_num

/-- General evaluation of a successful `get_cost_data` run with
`include_tax = false`. -/
theorem get_cost_data_false_eval (env : Env) (dates : Dates) (u t : UsageResponse)
    (res : List CostItem)
    (hg : env.ce_grouped = .ok u) (ht : env.ce_total = .ok t)
    (hu1 : u.ResultsByTime ≠ some []) (ht1 : t.ResultsByTime ≠ some [])
    (hfil : filterNonTax (groupsOf u) = .ok res) :
    get_cost_data env dates false =
      (.ok (respTotal t, (res.mergeSort costLE).take 5),
       [.usage dates.start_date dates.today true,
        .usage dates.start_date dates.today false]) := by
  rcases hru : u.ResultsByTime with _ | ⟨_ | ⟨r, rs⟩⟩
  all_goals rcases hrt : t.ResultsByTime with _ | ⟨_ | ⟨r2, rs2⟩⟩
  all_goals first
    | exact absurd hru hu1
    | exact absurd hrt ht1
    | (simp_all [get_cost_data, get_aws_cost_usage, firstResult, groupsOf,
        respTotal, totalAmount, Except.instMonad, Except.bind, Except.map,
        Except.pure, bind, pure])

/-- The witness cost query evaluates to total `542` and the five ranked
services, with the two billing requests issued over
`[2025-03-01, 2025-03-15)`. -/
theorem get_cost_data_envW :
    get_cost_data envWitness (get_dates ⟨2025, 3, 15⟩) false =
      (.ok (542, top5Witness),
       [.usage ⟨2025, 3, 1⟩ ⟨2025, 3, 15⟩ true,
        .usage ⟨2025, 3, 1⟩ ⟨2025, 3, 15⟩ false]) := by
  have h := get_cost_data_false_eval envWitness (get_dates ⟨2025, 3, 15⟩)
    uWitness tWitness nonTaxWitness rfl rfl (by simp [uWitness]) (by simp [tWitness]) rfl
  rw [h, show nonTaxWitness.mergeSort costLE = nonTaxWitness from
    List.mergeSort_of_sorted (by decide)]
  rfl

set_option maxRecDepth 10000 in
/-- Formatting the witness run's figures yields `msgWitness`. -/
theorem format_cost_message_envW :
    format_cost_message "123456789012" "prod" "2025-03-01" "2025-03-14"
      542 78590 1200 174000 145 top5Witness = .ok msgWitness := by
  have e1 : fmtFloat2 true (542 : ℚ) = "542.00" := by
    simp only [fmtFloat2, (show (542 : ℚ) * 100 = ((54200 : ℤ) : ℚ) by norm_num),
      roundHalfEven_intCast]
    rfl
  have e2 : fmtFloat2 true (1200 : ℚ) = "1,200.00" := by
    simp only [fmtFloat2, (show (1200 : ℚ) * 100 = ((120000 : ℤ) : ℚ) by norm_num),
      roundHalfEven_intCast]
    rfl
  have e3 : fmtFloat2 false (145 : ℚ) = "145.00" := by
    simp only [fmtFloat2, (show (145 : ℚ) * 100 = ((14500 : ℤ) : ℚ) by norm_num),
      roundHalfEven_intCast]
    rfl
  have e4 : fmtFloat2 true (50 : ℚ) = "50.00" := by
    simp only [fmtFloat2, (show (50 : ℚ) * 100 = ((5000 : ℤ) : ℚ) by norm_num),
      roundHalfEven_intCast]
    rfl
  have e5 : fmtFloat2 true (40 : ℚ) = "40.00" := by
    simp only [fmtFloat2, (show (40 : ℚ) * 100 = ((4000 : ℤ) : ℚ) by norm_num),
      roundHalfEven_intCast]
    rfl
  have e6 : fmtFloat2 true (30 : ℚ) = "30.00" := by
    simp only [fmtFloat2, (show (30 : ℚ) * 100 = ((3000 : ℤ) : ℚ) by norm_num),
      roundHalfEven_intCast]
    rfl
  have e7 : fmtFloat2 true (20 : ℚ) = "20.00" := by
    simp only [fmtFloat2, (show (20 : ℚ) * 100 = ((2000 : ℤ) : ℚ) by norm_num),
      roundHalfEven_intCast]
    rfl
  simp only [format_cost_message, top5Witness, top5Lines, mkGroup, costAmount,
    e1, e2, e3, e4, e5, e6, e7]
  rfl

/-- End-to-end evaluation of the witness run (spec §8's end-to-end case,
with integral amounts): identity `("123456789012", "prod")`, total `542`,
forecast `1200`, rate `145` yield `78,590` and `174,000` yen and the
enumerated top-5 block. -/
theorem runPipeline_envW :
    runPipeline ⟨none⟩ envWitness = .ok (msgWitness, callsWitness) := by
  have hconv1 : convert_usd_to_jpy 145 542 = 78590 := by
    simp only [convert_usd_to_jpy, (show (145 : ℚ) * 542 = ((78590 : ℤ) : ℚ) by norm_num),
      float_to_int_intCast]
  have hconv2 : convert_usd_to_jpy 145 1200 = 174000 := by
    simp only [convert_usd_to_jpy, (show (145 : ℚ) * 1200 = ((174000 : ℤ) : ℚ) by norm_num),
      float_to_int_intCast]
  have hfc : get_forecast_data envWitness (get_dates ⟨2025, 3, 15⟩) 542 =
      (.ok 1200, [CECall.forecast ⟨2025, 3, 15⟩ ⟨2025, 4, 1⟩]) := rfl
  simp only [runPipeline, (show envWitness.today = (⟨2025, 3, 15⟩ : Date) from rfl)]
  rw [show get_account_info envWitness = .ok ("123456789012", "prod") from rfl]
  dsimp only
  simp only [Option.getD_none]
  rw [get_cost_data_envW]
  dsimp only
  rw [show get_exchange_rate envWitness.fx = (145 : ℚ) from rfl, hconv1, hfc]
  dsimp only
  rw [hconv2]
  rw [show strftimeYMD (get_dates ⟨2025, 3, 15⟩).start_date = "2025-03-01" from rfl,
    show strftimeYMD (get_dates ⟨2025, 3, 15⟩).yesterday = "2025-03-14" from rfl]
  rw [format_cost_message_envW]
  rfl

/-- Witness for C10: the witness run prints `期間: 2025-03-01 - 2025-03-14`
while querying `[2025-03-01, 2025-03-15)`. -/
theorem main_display_range_witness :
    Date.Valid ⟨2025, 3, 15⟩ ∧
    runPipeline ⟨none⟩ envWitness = .ok (msgWitness, callsWitness) ∧
    ((get_dates envWitness.today).yesterday = envWitness.today.predDay ∧
     (∃ pre post, msgWitness = pre ++
       (strftimeYMD (get_dates envWitness.today).start_date ++ " - " ++
        strftimeYMD (get_dates envWitness.today).yesterday) ++ post) ∧
     (∀ d : Date, d.Valid →
       (Date.le (get_dates envWitness.today).start_date d ∧ Date.lt d envWitness.today ↔
        Date.le (get_dates envWitness.today).start_date d ∧
          Date.le d (get_dates envWitness.today).yesterday))) :=
  ⟨by decide, runPipeline_envW,
   main_display_range ⟨none⟩ envWitness msgWitness callsWitness (by decide) runPipeline_envW⟩
